import Mathlib

/-!
Verification of `diffnext/pipelines/pipeline_nova.py` (NOVA autoregressive
diffusion pipeline).

The file gives a shallow embedding of the pipeline's pure control and data
logic:

* the cosine mask-ratio schedule of `__call__` (lines 112-116), over real
  numbers with numpy's round-half-to-even rounding;
* prompt encoding, `encode_prompt` (lines 153-175), with the text-encoding
  collaborator abstracted as a function on strings;
* image encoding and latent preparation, `encode_image` (lines 177-194)
  and `prepare_latents` (lines 132-151), with the VAE abstracted;
* collaborator resolution, `register_module` (lines 196-217);
* the output formatting tail of `__call__` (lines 124-130);
* the pipeline-instance state written by `__call__` (line 111).

Tensors whose contents matter are modelled by index functions over `ℚ`
(Python floats such as `127.5` are exactly representable); tensors whose
contents are opaque to the pipeline are abstracted as type parameters.
-/

namespace NOVA

/-! ## Output formatting tail of `__call__` (pipeline_nova.py lines 124-130)

The code:
```
if output_type in ("latent", "pt"):
    return outputs["x"]
outputs["x"] = outputs["x"].cpu().numpy()
output_name = {4: "images", 5: "frames"}[len(outputs["x"].shape)]
if output_type == "pil" and output_name == "images":
    outputs["x"] = [PIL.Image.fromarray(image) for image in outputs["x"]]
return NOVAPipelineOutput(**{output_name: outputs["x"]})
```

We track the decoded tensor only through its shape, and record the
host-memory conversion (`.cpu().numpy()`) and PIL materialization as
explicit effects in the order the code performs them. The dict lookup
`{4: "images", 5: "frames"}[rank]` is partial: a rank outside `{4, 5}`
raises `KeyError`, modelled by `Except`. -/

/-- Host-side effects the output tail can perform: moving the tensor to
host memory (`.cpu().numpy()`) and materializing PIL image objects. -/
inductive Effect where
  | toHost : Effect
  | mkPILImages : Effect
deriving DecidableEq, Repr

/-- The value returned from the output tail of `__call__`: either the raw
device tensor `outputs["x"]`, or a `NOVAPipelineOutput` tagged `images`
(as PIL objects or as a host array) or `frames` (always a host array). -/
inductive CallOutput where
  | rawTensor (shape : List ℕ)
  | taggedImagesPIL (batch : ℕ)
  | taggedImagesArr (shape : List ℕ)
  | taggedFramesArr (shape : List ℕ)
deriving DecidableEq, Repr

/-- The rank-to-tag table `{4: "images", 5: "frames"}`; lookup of any
other rank raises `KeyError` (modelled as `none`). -/
def rankToName (rank : ℕ) : Option String :=
  if rank = 4 then some "images" else if rank = 5 then some "frames" else none

/-- The output tail of `__call__` (lines 124-130), as a function of the
requested `output_type` and the shape of the decoded tensor `outputs["x"]`.
Returns the produced output together with the host-side effects performed,
or `Except.error` when the rank lookup raises `KeyError`. -/
def finalizeOutput (output_type : String) (shape : List ℕ) :
    Except String (CallOutput × List Effect) :=
  if output_type = "latent" ∨ output_type = "pt" then
    .ok (.rawTensor shape, [])
  else
    match rankToName shape.length with
    | none => .error "KeyError"
    | some name =>
      if output_type = "pil" ∧ name = "images" then
        .ok (.taggedImagesPIL (shape.headD 0), [.toHost, .mkPILImages])
      else if name = "images" then
        .ok (.taggedImagesArr shape, [.toHost])
      else
        .ok (.taggedFramesArr shape, [.toHost])

/-- **C4.** With `output_type` equal to `"latent"` or `"pt"`, the raw tensor
is returned with no host-memory conversion and no PIL materialization.
Otherwise a rank-4 decoded tensor yields an `images`-tagged result and a
rank-5 tensor yields a `frames`-tagged result, with PIL image objects
materialized exactly when `output_type = "pil"` and the tag is `images`. -/
theorem call_output_formatting (output_type : String) (shape : List ℕ) :
    ((output_type = "latent" ∨ output_type = "pt") →
      finalizeOutput output_type shape = .ok (.rawTensor shape, [])) ∧
    (¬(output_type = "latent" ∨ output_type = "pt") → shape.length = 4 →
      finalizeOutput output_type shape =
        (if output_type = "pil" then
          .ok (.taggedImagesPIL (shape.headD 0), [.toHost, .mkPILImages])
        else .ok (.taggedImagesArr shape, [.toHost]))) ∧
    (¬(output_type = "latent" ∨ output_type = "pt") → shape.length = 5 →
      finalizeOutput output_type shape = .ok (.taggedFramesArr shape, [.toHost])) := by
  refine ⟨fun h => ?_, fun h h4 => ?_, fun h h5 => ?_⟩
  · simp [finalizeOutput, h]
  · by_cases hp : output_type = "pil" <;>
      simp [finalizeOutput, h, rankToName, h4, hp]
  · simp [finalizeOutput, h, rankToName, h5]

/-- Witness for `call_output_formatting`: concrete instances of all three
branches (`output_type = "latent"` with any shape; `output_type = "np"`
with a rank-4 shape; `output_type = "np"` with a rank-5 shape). -/
theorem call_output_formatting_witness :
    finalizeOutput "latent" [2, 16, 16, 4] = .ok (.rawTensor [2, 16, 16, 4], []) ∧
    finalizeOutput "np" [2, 16, 16, 3] = .ok (.taggedImagesArr [2, 16, 16, 3], [.toHost]) ∧
    finalizeOutput "np" [1, 8, 16, 16, 3] =
      .ok (.taggedFramesArr [1, 8, 16, 16, 3], [.toHost]) := by
  refine ⟨(call_output_formatting "latent" [2, 16, 16, 4]).1 (by decide), ?_, ?_⟩
  · have h := (call_output_formatting "np" [2, 16, 16, 3]).2.1 (by decide) (by decide)
    simpa using h
  · exact (call_output_formatting "np" [1, 8, 16, 16, 3]).2.2 (by decide) (by decide)

/-- **C9.** With `output_type` outside `{"latent", "pt"}` and a decoded
tensor of rank other than 4 or 5, the output tail raises an uncaught
`KeyError` from the rank-to-tag lookup and returns no tagged output. -/
theorem call_output_rank_error (output_type : String) (shape : List ℕ)
    (h : ¬(output_type = "latent" ∨ output_type = "pt"))
    (h4 : shape.length ≠ 4) (h5 : shape.length ≠ 5) :
    finalizeOutput output_type shape = .error "KeyError" := by
  simp [finalizeOutput, h, rankToName, h4, h5]

/-- Witness for `call_output_rank_error`: a rank-3 tensor with
`output_type = "pil"` raises `KeyError`. -/
theorem call_output_rank_error_witness :
    finalizeOutput "pil" [16, 16, 3] = .error "KeyError" :=
  call_output_rank_error "pil" [16, 16, 3] (by decide) (by decide) (by decide)

/-- **C10.** With `output_type = "pil"` and a rank-5 decoded tensor, the
result is tagged `frames` and holds the host array; no PIL image objects
are materialized even though `output_type` requested `"pil"`. -/
theorem call_output_pil_frames (shape : List ℕ) (h5 : shape.length = 5) :
    finalizeOutput "pil" shape = .ok (.taggedFramesArr shape, [.toHost]) ∧
    ∀ out effs, finalizeOutput "pil" shape = .ok (out, effs) →
      Effect.mkPILImages ∉ effs := by
  have hlp : ¬((("pil" : String)) = "latent" ∨ (("pil" : String)) = "pt") := by decide
  have hmain : finalizeOutput "pil" shape = .ok (.taggedFramesArr shape, [.toHost]) := by
    simp [finalizeOutput, hlp, rankToName, h5]
  refine ⟨hmain, fun out effs hok => ?_⟩
  rw [hmain] at hok
  cases hok
  decide

/-- Witness for `call_output_pil_frames`: a concrete rank-5 shape. -/
theorem call_output_pil_frames_witness :
    finalizeOutput "pil" [1, 8, 16, 16, 3] =
      .ok (.taggedFramesArr [1, 8, 16, 16, 3], [.toHost]) :=
  (call_output_pil_frames [1, 8, 16, 16, 3] (by decide)).1

/-! ## Prompt encoding, `encode_prompt` (pipeline_nova.py lines 153-175)

The code:
```
def select_or_pad(a, b, n=1):
    return [a or b] * n if isinstance(a or b, str) else (a or b)

prompt = [prompt] if isinstance(prompt, str) else prompt
negative_prompt = select_or_pad(negative_prompt, "", len(prompt))
prompts = prompt + (negative_prompt if self.guidance_scale > 1 else [])
c = self.transformer.text_embed.encode_prompts(prompts)
return c.repeat_interleave(num_images_per_prompt, dim=0)
```

The text-encoding collaborator `encode_prompts` produces one embedding row
per prompt string; it is abstracted as a function `enc : String → E`, so a
row tensor is a `List E`. `repeat_interleave(K, dim=0)` repeats each row
`K` times contiguously. -/

/-- A Python value that is either a single string or a list of strings
(the dynamic type of `prompt` and `negative_prompt`). -/
inductive Prompt where
  | str (s : String)
  | list (l : List String)
deriving DecidableEq, Repr

/-- Python truthiness of a string-or-list value: `""` and `[]` are falsy. -/
def Prompt.truthy : Prompt → Bool
  | .str s => s ≠ ""
  | .list l => l ≠ []

/-- Python `a or b` where `a` is `None`, a string, or a list of strings and
`b` is a string. -/
def orElseStr (a : Option Prompt) (b : String) : Prompt :=
  match a with
  | none => .str b
  | some p => if p.truthy then p else .str b

/-- `select_or_pad(a, b, n)` (line 168): `[a or b] * n` when `a or b` is a
string, otherwise `a or b` unchanged. -/
def select_or_pad (a : Option Prompt) (b : String) (n : ℕ) : List String :=
  match orElseStr a b with
  | .str s => List.replicate n s
  | .list l => l

/-- `prompt = [prompt] if isinstance(prompt, str) else prompt`
(line 171): a single string becomes a one-element list. -/
def Prompt.asList : Prompt → List String
  | .str s => [s]
  | .list l => l

/-- `c.repeat_interleave(K, dim=0)` on a row list: each row repeated `K`
times contiguously. -/
def repeatInterleave {E : Type} (K : ℕ) (c : List E) : List E :=
  (c.map (List.replicate K)).join

/-- `encode_prompt` (lines 153-175), with the text-encoding collaborator
`transformer.text_embed.encode_prompts` abstracted as `enc` and the
pipeline's `guidance_scale` field passed in. -/
def encode_prompt {E : Type} (guidance_scale : ℚ) (enc : String → E)
    (prompt : Prompt) (num_images_per_prompt : ℕ)
    (negative_prompt : Option Prompt) : List E :=
  repeatInterleave num_images_per_prompt
    ((prompt.asList ++
      (if guidance_scale > 1 then
        select_or_pad negative_prompt "" prompt.asList.length
      else [])).map enc)

theorem repeatInterleave_length {E : Type} (K : ℕ) (rows : List E) :
    (repeatInterleave K rows).length = rows.length * K := by
  induction rows with
  | nil => simp [repeatInterleave]
  | cons a t ih =>
    show (List.replicate K a ++ repeatInterleave K t).length = _
    simp only [List.length_append, List.length_replicate, ih, List.length_cons]
    ring

theorem repeatInterleave_getElem (E : Type) (K : ℕ) (rows : List E) (i j : ℕ)
    (hi : i < rows.length) (hj : j < K) :
    (repeatInterleave K rows)[i * K + j]? = rows[i]? := by
  induction rows generalizing i with
  | nil => simp at hi
  | cons a t ih =>
    have hstep : repeatInterleave K (a :: t) =
        List.replicate K a ++ repeatInterleave K t := rfl
    cases i with
    | zero =>
      rw [hstep, List.getElem?_append_left (by simpa using hj)]
      simp [hj]
    | succ i =>
      have hlen : (List.replicate K a).length ≤ (i + 1) * K + j := by
        simp only [List.length_replicate]
        nlinarith
      rw [hstep, List.getElem?_append_right hlen]
      have harith : (i + 1) * K + j - (List.replicate K a).length = i * K + j := by
        simp only [List.length_replicate]
        have : (i + 1) * K = i * K + K := by ring
        omega
      rw [harith]
      simpa using ih i (by simpa using hi)

/-- The negative prompt broadcasts to exactly the positive batch length
(automatic when it is `None`, a string, or a list of that length). -/
def negMatches (negative_prompt : Option Prompt) (n : ℕ) : Prop :=
  (select_or_pad negative_prompt "" n).length = n

/-- **C2.** Encoding `N` prompts with `num_images_per_prompt = K` produces
`2*N*K` rows when `guidance_scale > 1` and `N*K` rows when
`guidance_scale ≤ 1`; the rows are in prompt-major order, positive prompts
first and then (under guidance) negative prompts, each encoded row repeated
`K` times contiguously. -/
theorem encode_prompt_batch (E : Type) (enc : String → E) (gs : ℚ)
    (ps : List String) (K : ℕ) (neg : Option Prompt)
    (hneg : negMatches neg ps.length) :
    ((gs > 1 →
        (encode_prompt gs enc (.list ps) K neg).length = 2 * ps.length * K) ∧
     (gs ≤ 1 →
        (encode_prompt gs enc (.list ps) K neg).length = ps.length * K)) ∧
    (∀ i j, i < ps.length → j < K →
      (encode_prompt gs enc (.list ps) K neg)[i * K + j]? = (ps.map enc)[i]?) ∧
    (gs > 1 → ∀ i j, i < ps.length → j < K →
      (encode_prompt gs enc (.list ps) K neg)[(ps.length + i) * K + j]? =
        ((select_or_pad neg "" ps.length).map enc)[i]?) := by
  unfold negMatches at hneg
  have hunfold : encode_prompt gs enc (.list ps) K neg =
      repeatInterleave K
        ((ps ++ (if gs > 1 then select_or_pad neg "" ps.length else [])).map enc) := rfl
  refine ⟨⟨fun hgs => ?_, fun hgs => ?_⟩, fun i j hi hj => ?_, fun hgs i j hi hj => ?_⟩
  · rw [hunfold, repeatInterleave_length, if_pos hgs]
    simp only [List.length_map, List.length_append, hneg]
    ring
  · rw [hunfold, repeatInterleave_length, if_neg (not_lt.mpr hgs)]
    simp
  · rw [hunfold, repeatInterleave_getElem E K _ i j
      (by simp only [List.length_map, List.length_append]; omega) hj]
    rw [List.map_append, List.getElem?_append_left (by simpa using hi)]
  · rw [hunfold, if_pos hgs,
      repeatInterleave_getElem E K _ (ps.length + i) j (by simp [hneg, hi]) hj]
    rw [List.map_append, List.getElem?_append_right (by simp)]
    simp

/-- Witness for `encode_prompt_batch`: two prompts, `K = 2`, default
negative prompt, `guidance_scale = 5`. -/
theorem encode_prompt_batch_witness :
    (encode_prompt 5 (fun s => s) (.list ["a", "b"]) 2 none).length = 2 * 2 * 2 ∧
    (encode_prompt 5 (fun s => s) (.list ["a", "b"]) 2 none)[1 * 2 + 1]? =
      some "b" ∧
    (encode_prompt 5 (fun s => s) (.list ["a", "b"]) 2 none)[(2 + 0) * 2 + 0]? =
      some "" := by
  have h := encode_prompt_batch String (fun s => s) 5 ["a", "b"] 2 none
    (by unfold negMatches; rfl)
  refine ⟨h.1.1 (by norm_num), ?_, ?_⟩
  · have := h.2.1 1 1 (by decide) (by decide)
    simpa using this
  · have := h.2.2 (by norm_num) 0 0 (by decide) (by decide)
    simpa using this

/-- Counterexample to **C5** as stated: with positive prompts
`["a", "b"]` and negative prompt list `["x"]`, the negative prompt is NOT
padded to the positive batch length 2 — `select_or_pad` returns the
1-element list unchanged, and under guidance the concatenated batch has 3
rows (2 positive + 1 negative) instead of 4. -/
theorem encode_prompt_negative_pad_cex :
    (select_or_pad (some (.list ["x"])) "" 2).length ≠ 2 ∧
    encode_prompt 2 (fun s => s) (.list ["a", "b"]) 1 (some (.list ["x"])) =
      ["a", "b", "x"] := by
  constructor
  · decide
  · rfl

/-- **C5** (amended). When the negative prompt is absent, the empty string,
or the empty list, it defaults to the empty string broadcast to the
positive batch length; a nonempty string is broadcast to the positive batch
length; a nonempty LIST is used as-is (not padded). The negative prompts
are concatenated after the positive prompts exactly when
`guidance_scale > 1`. -/
theorem encode_prompt_negative_handling (E : Type) (enc : String → E)
    (gs : ℚ) (ps : List String) (K : ℕ) (neg : Option Prompt) :
    (select_or_pad none "" ps.length = List.replicate ps.length "") ∧
    (select_or_pad (some (.str "")) "" ps.length = List.replicate ps.length "") ∧
    (select_or_pad (some (.list [])) "" ps.length = List.replicate ps.length "") ∧
    (∀ s : String, s ≠ "" →
      select_or_pad (some (.str s)) "" ps.length = List.replicate ps.length s) ∧
    (∀ l : List String, l ≠ [] → select_or_pad (some (.list l)) "" ps.length = l) ∧
    (gs > 1 → encode_prompt gs enc (.list ps) K neg =
      repeatInterleave K ((ps ++ select_or_pad neg "" ps.length).map enc)) ∧
    (gs ≤ 1 → encode_prompt gs enc (.list ps) K neg =
      repeatInterleave K (ps.map enc)) := by
  refine ⟨rfl, rfl, rfl, fun s hs => ?_, fun l hl => ?_, fun hgs => ?_, fun hgs => ?_⟩
  · simp [select_or_pad, orElseStr, Prompt.truthy, hs]
  · simp [select_or_pad, orElseStr, Prompt.truthy, hl]
  · show repeatInterleave K
        ((ps ++ if gs > 1 then select_or_pad neg "" ps.length else []).map enc) = _
    rw [if_pos hgs]
  · show repeatInterleave K
        ((ps ++ if gs > 1 then select_or_pad neg "" ps.length else []).map enc) = _
    rw [if_neg (not_lt.mpr hgs)]
    simp

/-- Witness for `encode_prompt_negative_handling`: the nonempty-string and
nonempty-list cases at concrete inputs, and both guidance branches. -/
theorem encode_prompt_negative_handling_witness :
    select_or_pad (some (.str "bad")) "" 2 = ["bad", "bad"] ∧
    select_or_pad (some (.list ["x"])) "" 2 = ["x"] ∧
    encode_prompt 5 (fun s => s) (.list ["a", "b"]) 1 none = ["a", "b", "", ""] ∧
    encode_prompt 1 (fun s => s) (.list ["a", "b"]) 1 none = ["a", "b"] := by
  have h := encode_prompt_negative_handling String (fun s => s) 5 ["a", "b"] 1 none
  have h1 := encode_prompt_negative_handling String (fun s => s) 1 ["a", "b"] 1 none
  refine ⟨?_, ?_, ?_, ?_⟩
  · simpa using h.2.2.2.1 "bad" (by decide)
  · simpa using h.2.2.2.2.1 ["x"] (by decide)
  · rw [h.2.2.2.2.2.1 (by norm_num)]; rfl
  · rw [h1.2.2.2.2.2.2 (by norm_num)]; rfl

/-! ## Guidance batch size and motion flow (pipeline_nova.py lines 120-121)

```
inputs["batch_size"] = len(inputs["prompt"]) // (2 if guidance_scale > 1 else 1)
inputs["motion_flow"] = [motion_flow] * inputs["batch_size"]
```
-/

/-- `batch_size` derived in `__call__` (line 120): the encoded prompt row
count floor-divided by 2 under guidance, by 1 otherwise. -/
def batch_size_of (guidance_scale : ℚ) (promptRows : ℕ) : ℕ :=
  promptRows / (if guidance_scale > 1 then 2 else 1)

/-- `motion_flow` broadcast in `__call__` (line 121). -/
def motion_flow_list (motion_flow : ℚ) (batch_size : ℕ) : List ℚ :=
  List.replicate batch_size motion_flow

/-- **C7.** For `prompt = ["a cat", "a dog"]`, `guidance_scale = 5`,
`num_images_per_prompt = 1`: the encoded prompt batch has 4 rows (the two
positive prompts followed by two default-negative rows), the derived
`batch_size` is `4 // 2 = 2`, and `motion_flow` is broadcast to a list of
length 2. -/
theorem call_cat_dog_scenario (E : Type) (enc : String → E) (mf : ℚ) :
    encode_prompt 5 enc (.list ["a cat", "a dog"]) 1 none =
      [enc "a cat", enc "a dog", enc "", enc ""] ∧
    (encode_prompt 5 enc (.list ["a cat", "a dog"]) 1 none).length = 4 ∧
    batch_size_of 5 (encode_prompt 5 enc (.list ["a cat", "a dog"]) 1 none).length = 2 ∧
    (motion_flow_list mf
      (batch_size_of 5 (encode_prompt 5 enc (.list ["a cat", "a dog"]) 1 none).length)).length
        = 2 := by
  have h5 : ((5 : ℚ) > 1) = True := by norm_num
  have h1 : encode_prompt 5 enc (.list ["a cat", "a dog"]) 1 none =
      [enc "a cat", enc "a dog", enc "", enc ""] := by
    show repeatInterleave 1
        ((["a cat", "a dog"] ++
          if (5 : ℚ) > 1 then select_or_pad none "" 2 else []).map enc) = _
    rw [if_pos (by norm_num)]
    rfl
  have h2 : (encode_prompt 5 enc (.list ["a cat", "a dog"]) 1 none).length = 4 := by
    rw [h1]; rfl
  have h3 : batch_size_of 5 (4 : ℕ) = 2 := by
    unfold batch_size_of
    rw [if_pos (by norm_num)]
  refine ⟨h1, h2, ?_, ?_⟩
  · rw [h2]; exact h3
  · rw [h2, h3]; rfl

/-! ## Pipeline instance state (pipeline_nova.py lines 47-64 and 111)

`__init__` (lines 56-64) stores the five collaborators, the
`guidance_scale` default and `tokenizer_max_length` on the instance. The
body of `__call__` contains exactly one assignment to `self`:
line 111, `self.guidance_scale = guidance_scale`. -/

/-- The instance fields of `NOVAPipeline`; collaborator objects are
abstracted as type parameters. -/
structure PipelineState (V TE TK TR SC : Type) where
  vae : V
  text_encoder : TE
  tokenizer : TK
  transformer : TR
  scheduler : SC
  tokenizer_max_length : ℕ
  guidance_scale : ℚ

/-- The update `__call__` performs on the pipeline instance: line 111
`self.guidance_scale = guidance_scale`, the only assignment to `self`
anywhere in the body of `__call__`. -/
def call_state_update {V TE TK TR SC : Type} (p : PipelineState V TE TK TR SC)
    (guidance_scale : ℚ) : PipelineState V TE TK TR SC :=
  { p with guidance_scale := guidance_scale }

/-- **C8.** Every call to `__call__` sets the instance's `guidance_scale`
field to the call's `guidance_scale` argument, and leaves `vae`,
`text_encoder`, `tokenizer`, `transformer`, `scheduler` and
`tokenizer_max_length` unchanged. -/
theorem call_guidance_scale_frame (V TE TK TR SC : Type)
    (p : PipelineState V TE TK TR SC) (gs : ℚ) :
    (call_state_update p gs).guidance_scale = gs ∧
    (call_state_update p gs).vae = p.vae ∧
    (call_state_update p gs).text_encoder = p.text_encoder ∧
    (call_state_update p gs).tokenizer = p.tokenizer ∧
    (call_state_update p gs).transformer = p.transformer ∧
    (call_state_update p gs).scheduler = p.scheduler ∧
    (call_state_update p gs).tokenizer_max_length = p.tokenizer_max_length :=
  ⟨rfl, rfl, rfl, rfl, rfl, rfl, rfl⟩

/-! ## Image encoding, `encode_image` (pipeline_nova.py lines 177-194)
and `prepare_latents` (lines 132-151)

The code:
```
x = torch.as_tensor(image, device=self.device).to(dtype=self.dtype)
x = x.sub(127.5).div_(127.5).permute(2, 0, 1).unsqueeze_(0)
x = self.vae.scale_(self.vae.encode(x).latent_dist.sample(generator))
return x.expand(num_images_per_prompt, -1, -1, -1)
```
and
```
latents = []
if image is not None:
    latents.append(self.encode_image(image, num_images_per_prompt, generator))
return latents
```

Pixel values are rationals (`127.5` is exactly representable); the VAE's
`encode(..).latent_dist.sample(generator)` step and its in-place
`scale_` are abstracted, with opaque generator and latent types. -/

/-- A raw pixel image: a numpy array of shape `(height, width, channels)`
indexed `pix h w c`. -/
structure ImageArr where
  height : ℕ
  width : ℕ
  channels : ℕ
  pix : ℕ → ℕ → ℕ → ℚ

/-- A rank-4 tensor of rationals with its shape, indexed `val n c h w`. -/
structure Tensor4 where
  shape : List ℕ
  val : ℕ → ℕ → ℕ → ℕ → ℚ

/-- The pointwise normalization `sub(127.5).div_(127.5)` (line 192). -/
def normalizePixel (v : ℚ) : ℚ := (v - 255 / 2) / (255 / 2)

/-- Lines 191-192: value-preserving tensor conversion, pointwise
normalization, `permute(2, 0, 1)` to channel-first layout, and
`unsqueeze_(0)` adding a leading batch dimension of size 1. -/
def pipelineImageTensor (img : ImageArr) : Tensor4 :=
  { shape := [1, img.channels, img.height, img.width]
    val := fun _ c h w => normalizePixel (img.pix h w c) }

/-- The VAE collaborator as used by `encode_image`:
`encode(x).latent_dist.sample(generator)` fused into `encodeSample`, plus
the in-place `scale_`, over opaque generator type `G` and latent type
`L`. -/
structure VAEModel (G L : Type) where
  encodeSample : Tensor4 → Option G → L
  scale : L → L

/-- `encode_image` (lines 177-194): normalize/permute/unsqueeze the pixel
array, encode and sample through the VAE, apply the VAE scale, and
broadcast (`expand(num_images_per_prompt, -1, -1, -1)`) to
`num_images_per_prompt` identical rows. -/
def encode_image {G L : Type} (vae : VAEModel G L) (image : ImageArr)
    (num_images_per_prompt : ℕ) (generator : Option G) : List L :=
  List.replicate num_images_per_prompt
    (vae.scale (vae.encodeSample (pipelineImageTensor image) generator))

/-- `prepare_latents` (lines 132-151): the empty list without a seed
image, otherwise the single encoded-image latent. -/
def prepare_latents {G L : Type} (vae : VAEModel G L) (image : Option ImageArr)
    (num_images_per_prompt : ℕ) (generator : Option G) : List (List L) :=
  match image with
  | none => []
  | some img => [encode_image vae img num_images_per_prompt generator]

/-- **C6.** `encode_image` normalizes pixel values by
`(v - 127.5) / 127.5` (so `0 ↦ -1`, `255 ↦ 1`, and `[0, 255]` lands in
`[-1, 1]`), permutes to channel-first layout under a leading batch
dimension of size 1, feeds the tensor through the VAE's encode-and-sample
step followed by the VAE scale, and broadcasts the result to
`num_images_per_prompt` rows; `prepare_latents` returns `[]` when the
image is `None` and the one-element list of that encoded latent
otherwise. -/
theorem encode_image_spec (G L : Type) (vae : VAEModel G L) (img : ImageArr)
    (K : ℕ) (g : Option G) (n c h w : ℕ) (v : ℚ) :
    normalizePixel 0 = -1 ∧
    normalizePixel 255 = 1 ∧
    (0 ≤ v → v ≤ 255 → -1 ≤ normalizePixel v ∧ normalizePixel v ≤ 1) ∧
    (pipelineImageTensor img).val n c h w = (img.pix h w c - 255 / 2) / (255 / 2) ∧
    (pipelineImageTensor img).shape = [1, img.channels, img.height, img.width] ∧
    encode_image vae img K g =
      List.replicate K (vae.scale (vae.encodeSample (pipelineImageTensor img) g)) ∧
    prepare_latents vae none K g = ([] : List (List L)) ∧
    prepare_latents vae (some img) K g = [encode_image vae img K g] := by
  refine ⟨by norm_num [normalizePixel], by norm_num [normalizePixel],
    fun h0 h255 => ⟨?_, ?_⟩, rfl, rfl, rfl, rfl, rfl⟩
  · unfold normalizePixel
    rw [le_div_iff (by norm_num : (0 : ℚ) < 255 / 2)]
    linarith
  · unfold normalizePixel
    rw [div_le_one (by norm_num : (0 : ℚ) < 255 / 2)]
    linarith

/-- Witness for `encode_image_spec`: a concrete 1×1×1 image with pixel
value 51, trivial VAE over `L = ℚ`, `K = 2`. -/
theorem encode_image_spec_witness :
    normalizePixel 0 = -1 ∧
    (-1 ≤ normalizePixel 51 ∧ normalizePixel 51 ≤ 1) := by
  have h := encode_image_spec Unit ℚ ⟨fun t _ => t.val 0 0 0 0, id⟩
    ⟨1, 1, 1, fun _ _ _ => 51⟩ 2 none 0 0 0 0 51
  exact ⟨h.1, h.2.2.1 (by norm_num) (by norm_num)⟩

/-! ## Collaborator resolution, `register_module` (pipeline_nova.py
lines 196-217)

The code:
```
model = model_or_path
if isinstance(model_or_path, str):
    cls = self.__init__.__annotations__[name]
    if hasattr(cls, "from_pretrained") and model_or_path:
        model = cls.from_pretrained(model_or_path, torch_dtype=self.dtype)
        model = model.to(self.device) if isinstance(model, torch.nn.Module) else model
    model = cls()
self.register_to_config(**{name: model.__class__.__name__})
return model
```

Note the indentation of `model = cls()`: it sits at the level of the inner
`if`, NOT under an `else`, so whenever a string is given the model is
default-constructed, and a `from_pretrained` result computed by the two
preceding lines is unconditionally discarded. The class looked up from
`__init__.__annotations__` is abstracted as a `ClassInfo` record (concrete
collaborator classes are framework objects outside this repository). -/

/-- The argument of `register_module`: an already-instantiated object or a
string path/identifier. -/
inductive ModelOrPath (M : Type) where
  | model (m : M)
  | path (s : String)
deriving DecidableEq

/-- The target class `cls = self.__init__.__annotations__[name]`
(line 211), abstracted: default constructor `cls()`, whether
`hasattr(cls, "from_pretrained")`, the loader
`cls.from_pretrained(path, torch_dtype=...)`, the
`isinstance(model, torch.nn.Module)` test, `model.to(self.device)`, and
`model.__class__.__name__`. -/
structure ClassInfo (M : Type) where
  defaultInstance : M
  hasFromPretrained : Bool
  fromPretrained : String → M
  isNNModule : M → Bool
  toDevice : M → M
  className : M → String

/-- `register_module` (lines 196-217), returning the resolved model
together with the class name written into the pipeline configuration by
`register_to_config`. The `loaded` binding models lines 213-214; per the
source's indentation it is dead, overwritten by `model = cls()` at
line 215. -/
def register_module {M : Type} (cls : ClassInfo M)
    (model_or_path : ModelOrPath M) : M × String :=
  let model :=
    match model_or_path with
    | .model m => m
    | .path s =>
      let loaded : Option M :=
        if cls.hasFromPretrained ∧ s ≠ "" then
          let m := cls.fromPretrained s
          some (if cls.isNNModule m then cls.toDevice m else m)
        else none
      let _ := loaded
      cls.defaultInstance
  (model, cls.className model)

/-- A concrete collaborator class over `M = ℕ` whose pretrained loader is
observably different from its default constructor: `cls()` is `0` named
`"DefaultCtor"`, `from_pretrained` then `to` yields `11` named
`"Pretrained"`. -/
def pretrainedCls : ClassInfo ℕ :=
  { defaultInstance := 0
    hasFromPretrained := true
    fromPretrained := fun _ => 1
    isNNModule := fun _ => true
    toDevice := fun m => m + 10
    className := fun m => if m = 0 then "DefaultCtor" else "Pretrained" }

/-- **C3** fails on the code: for a non-empty path to a class supporting
pretrained loading, `register_module` resolves to the default-constructed
instance `cls()` (recording its class name), NOT the `from_pretrained`
result moved to the device — line 215 `model = cls()` unconditionally
overwrites the load of lines 213-214. -/
theorem register_module_pretrained_discarded :
    pretrainedCls.hasFromPretrained = true ∧
    register_module pretrainedCls (.path "BAAI/nova-d48w1024-sdvae") =
      (pretrainedCls.defaultInstance, "DefaultCtor") ∧
    register_module pretrainedCls (.path "BAAI/nova-d48w1024-sdvae") ≠
      (pretrainedCls.toDevice (pretrainedCls.fromPretrained "BAAI/nova-d48w1024-sdvae"),
       pretrainedCls.className
         (pretrainedCls.toDevice (pretrainedCls.fromPretrained "BAAI/nova-d48w1024-sdvae"))) := by
  refine ⟨rfl, rfl, ?_⟩
  intro hcontra
  have : (0 : ℕ) = 11 := congrArg Prod.fst hcontra
  exact absurd this (by decide)

/-! ## Cosine mask schedule (pipeline_nova.py lines 112-116)

The code:
```
num_patches = int(np.prod(self.transformer.config.image_base_size))
mask_ratios = np.cos(0.5 * np.pi * np.arange(num_inference_steps + 1) / num_inference_steps)
mask_length = np.round(mask_ratios * num_patches).astype("int64")
inputs["num_preds"] = mask_length[:-1] - mask_length[1:]
```

Modelled over the reals: `np.cos`/`np.pi` become `Real.cos`/`Real.pi`, and
`np.round` is numpy's round-half-to-even. `num_patches` is the
transformer's declared patch count `P`, `num_inference_steps` is `S`. -/

/-- numpy `np.round`: round to the nearest integer, ties to the even
integer. -/
noncomputable def roundHalfEven (x : ℝ) : ℤ :=
  if Int.fract x < 1 / 2 then ⌊x⌋
  else if 1 / 2 < Int.fract x then ⌊x⌋ + 1
  else if Even ⌊x⌋ then ⌊x⌋ else ⌊x⌋ + 1

theorem floor_le_roundHalfEven (x : ℝ) : ⌊x⌋ ≤ roundHalfEven x := by
  unfold roundHalfEven
  split_ifs <;> omega

theorem roundHalfEven_le_floor_add_one (x : ℝ) : roundHalfEven x ≤ ⌊x⌋ + 1 := by
  unfold roundHalfEven
  split_ifs <;> omega

theorem roundHalfEven_mono {x y : ℝ} (hxy : x ≤ y) :
    roundHalfEven x ≤ roundHalfEven y := by
  have hfl : ⌊x⌋ ≤ ⌊y⌋ := Int.floor_mono hxy
  rcases eq_or_lt_of_le hfl with heq | hlt
  · have hfr : Int.fract x ≤ Int.fract y := by
      rw [← Int.self_sub_floor x, ← Int.self_sub_floor y, heq]
      linarith
    unfold roundHalfEven
    split_ifs <;>
      first
      | omega
      | (exfalso; linarith)
      | (exfalso; simp only [Int.even_iff] at *; omega)
  · calc roundHalfEven x ≤ ⌊x⌋ + 1 := roundHalfEven_le_floor_add_one x
      _ ≤ ⌊y⌋ := by omega
      _ ≤ roundHalfEven y := floor_le_roundHalfEven y

theorem roundHalfEven_natCast (n : ℕ) : roundHalfEven (n : ℝ) = n := by
  unfold roundHalfEven
  rw [Int.fract_natCast, Int.floor_natCast, if_pos (by norm_num : (0 : ℝ) < 1 / 2)]

/-- `mask_ratios` (line 114): entry `i` of
`np.cos(0.5 * np.pi * np.arange(S + 1) / S)`. -/
noncomputable def mask_ratio (S i : ℕ) : ℝ :=
  Real.cos (0.5 * Real.pi * i / S)

/-- `mask_length` (line 115): `np.round(mask_ratios * num_patches)` as
64-bit integers (the magnitudes involved are at most `num_patches`, far
from the `int64` bounds, so plain `ℤ` is faithful). -/
noncomputable def mask_length (P S i : ℕ) : ℤ :=
  roundHalfEven (mask_ratio S i * P)

/-- `num_preds` (line 116): `mask_length[:-1] - mask_length[1:]`, the
consecutive differences, entry `i` for `i = 0, ..., S - 1`. -/
noncomputable def num_preds (P S i : ℕ) : ℤ :=
  mask_length P S i - mask_length P S (i + 1)

theorem mask_ratio_zero (S : ℕ) : mask_ratio S 0 = 1 := by
  unfold mask_ratio
  simp

theorem mask_ratio_last (S : ℕ) (hS : S ≠ 0) : mask_ratio S S = 0 := by
  have hS' : (S : ℝ) ≠ 0 := Nat.cast_ne_zero.mpr hS
  unfold mask_ratio
  have harg : (0.5 : ℝ) * Real.pi * S / S = Real.pi / 2 := by
    rw [mul_div_assoc, div_self hS', mul_one]
    ring
  rw [harg, Real.cos_pi_div_two]

theorem mask_ratio_succ_le (S i : ℕ) (hi : i < S) :
    mask_ratio S (i + 1) ≤ mask_ratio S i := by
  have hSpos : (0 : ℝ) < S := by
    have : 0 < S := by omega
    exact_mod_cast this
  unfold mask_ratio
  apply Real.cos_le_cos_of_nonneg_of_le_pi
  · positivity
  · rw [mul_div_assoc]
    have h1 : ((i + 1 : ℕ) : ℝ) / S ≤ 1 := by
      rw [div_le_one hSpos]
      exact_mod_cast hi
    nlinarith [Real.pi_pos]
  · rw [div_le_div_right hSpos]
    apply mul_le_mul_of_nonneg_left _ (by positivity)
    exact_mod_cast Nat.le_succ i

theorem mask_length_zero (P S : ℕ) : mask_length P S 0 = P := by
  unfold mask_length
  rw [mask_ratio_zero, one_mul, roundHalfEven_natCast]

theorem mask_length_last (P S : ℕ) (hS : 1 ≤ S) : mask_length P S S = 0 := by
  unfold mask_length
  rw [mask_ratio_last S (by omega), zero_mul]
  simpa using roundHalfEven_natCast 0

theorem mask_length_succ_le (P S i : ℕ) (hi : i < S) :
    mask_length P S (i + 1) ≤ mask_length P S i := by
  unfold mask_length
  exact roundHalfEven_mono
    (mul_le_mul_of_nonneg_right (mask_ratio_succ_le S i hi) (by positivity))

/-- **C1.** For every `num_inference_steps = S ≥ 1` and patch count `P`,
the per-step reveal counts `num_preds` (consecutive differences of the
rounded cosine schedule over `P` patches) form a sequence of length `S`
of non-negative integers whose sum is exactly `P`. -/
theorem mask_schedule_reveal_counts (P S : ℕ) (hS : 1 ≤ S) :
    ((List.range S).map (num_preds P S)).length = S ∧
    (∀ i, i < S → 0 ≤ num_preds P S i) ∧
    ∑ i ∈ Finset.range S, num_preds P S i = P := by
  refine ⟨by simp, fun i hi => ?_, ?_⟩
  · unfold num_preds
    have h := mask_length_succ_le P S i hi
    omega
  · unfold num_preds
    rw [Finset.sum_range_sub' (mask_length P S), mask_length_zero,
      mask_length_last P S hS]
    ring

/-- Witness for `mask_schedule_reveal_counts`: with `S = 1` and `P = 4`,
the single reveal count is non-negative and the schedule sum forces
`num_preds 4 1 0 = 4`. -/
theorem mask_schedule_reveal_counts_witness :
    0 ≤ num_preds 4 1 0 ∧ num_preds 4 1 0 = 4 := by
  have h := mask_schedule_reveal_counts 4 1 (by norm_num)
  refine ⟨h.2.1 0 (by norm_num), ?_⟩
  have hsum := h.2.2
  simpa [Finset.sum_range_one] using hsum

end NOVA
